import Mathlib

/-!
Verification development for the OpsDash mainframe dashboard
(`opsdash_web.py` and `pi_enhanced_dashboard.py`).

The Python source is shallowly embedded: each Python function that the
claims mention is translated into an executable Lean definition.  The
outside world (subprocess outcomes, file reads, the temporary-file path,
the SQLite table contents) is passed in explicitly as data, and Python
exceptions are modelled with `Except Exc`.  Python `str` values are
modelled as Lean `String` (operating on `String.data`, the list of
characters, mirroring Python's per-character semantics), and JSON values
as the inductive type `Json` below.
-/

namespace OpsDash

/-- Python exception kinds that can arise in the embedded fragments. -/
inductive Exc where
  | indexError
  | attributeError
  | typeError
  deriving Repr, DecidableEq

/-! ## Generic string helpers mirroring Python `str` methods -/

/-- Does `needle` occur as a contiguous sublist of the list?  This is the
embedding of Python's `needle in haystack` on strings. -/
def listContainsSub (needle : List Char) : List Char → Bool
  | [] => needle.isEmpty
  | c :: cs => needle.isPrefixOf (c :: cs) || listContainsSub needle cs

/-- Python `needle in haystack` for strings. -/
def strContains (haystack needle : String) : Bool :=
  listContainsSub needle.data haystack.data

/-- Python `s.replace(pat, rep)`: replace non-overlapping occurrences of
`pat` left to right.  (For the empty pattern the source never calls it;
the guard keeps the function total and leaves the input unchanged.) -/
def pyReplace (pat rep : List Char) : List Char → List Char
  | [] => []
  | c :: cs =>
    if h : pat ≠ [] ∧ pat.isPrefixOf (c :: cs) then
      rep ++ pyReplace pat rep (List.drop pat.length (c :: cs))
    else
      c :: pyReplace pat rep cs
termination_by l => l.length
decreasing_by
  · have hlen : 1 ≤ pat.length := by
      cases hp : pat with
      | nil => exact absurd hp h.1
      | cons a as => simp
    have hpre := List.isPrefixOf_iff_prefix.mp h.2
    have hle : pat.length ≤ (c :: cs).length := hpre.length_le
    simp only [List.length_drop]
    omega
  · simp

/-- Python `s.replace(pat, rep)` on `String`. -/
def pyReplaceS (s pat rep : String) : String :=
  String.mk (pyReplace pat.data rep.data s.data)

/-- Python `s[:n]` (a slice is by characters). -/
def pyTake (n : Nat) (s : String) : String :=
  String.mk (s.data.take n)

/-- Python `s.ljust(n)`: pad on the right with spaces to width `n`. -/
def pyLjust (n : Nat) (s : String) : String :=
  String.mk (s.data ++ List.replicate (n - s.data.length) ' ')

/-- Python string truthiness combined with `or`: `a or b` yields `a` when
`a` is a non-empty string and `b` otherwise. -/
def pyOrStr (a b : String) : String :=
  if a = "" then b else a

/-- Python whitespace (the characters stripped by `str.strip()` and used
as separators by `str.split()`; the ASCII subset that can occur here). -/
def isPyWs (c : Char) : Bool :=
  c = ' ' || c = '\t' || c = '\n' || c = '\r' || c = '\x0b' || c = '\x0c'

/-- Python `s.strip()` (ASCII whitespace). -/
def pyStrip (s : String) : String :=
  String.mk (((s.data.dropWhile (isPyWs ·)).reverse.dropWhile (isPyWs ·)).reverse)

/-- Python `s.split()` with no argument: split on runs of whitespace,
discarding empty fields. -/
def pySplitWs (s : String) : List String :=
  (s.split (isPyWs ·)).filter (fun t => t ≠ "")

/-- Python `s.split(sep)` for a single-character separator `sep`. -/
def pySplitOn (s : String) (sep : String) : List String :=
  s.splitOn sep

/-! ## JSON values (the result of Python `json.loads`) -/

/-- A JSON value as produced by `json.loads`.  Numbers keep their raw
source text (none of the embedded code computes with JSON numbers), and
objects are Python dicts: association lists with unique keys. -/
inductive Json where
  | null
  | bool (b : Bool)
  | num (raw : String)
  | str (s : String)
  | arr (items : List Json)
  | obj (fields : List (String × Json))
  deriving Repr

mutual

def jsonBEq : Json → Json → Bool
  | .null, .null => true
  | .bool a, .bool b => a == b
  | .num a, .num b => a == b
  | .str a, .str b => a == b
  | .arr a, .arr b => jsonListBEq a b
  | .obj a, .obj b => jsonFieldsBEq a b
  | _, _ => false

def jsonListBEq : List Json → List Json → Bool
  | [], [] => true
  | a :: as, b :: bs => jsonBEq a b && jsonListBEq as bs
  | _, _ => false

def jsonFieldsBEq : List (String × Json) → List (String × Json) → Bool
  | [], [] => true
  | (k, v) :: as, (k', v') :: bs => k == k' && jsonBEq v v' && jsonFieldsBEq as bs
  | _, _ => false

end

instance : BEq Json := ⟨jsonBEq⟩

/-- `dict.get(k)` on a parsed JSON object's field list (`None` ↦ `none`).
Keys are unique (the decoder keeps the last value per key, as Python's
dict does), so first match suffices. -/
def dictGet? (fields : List (String × Json)) (k : String) : Option Json :=
  (fields.find? (fun kv => kv.1 == k)).map (·.2)

/-- `k in dict` on a field list. -/
def dictHasKey (fields : List (String × Json)) (k : String) : Bool :=
  fields.any (fun kv => kv.1 == k)

/-- `dict[k] = v` on a field list: replace the value of an existing key
in place, else append (Python dict insertion semantics). -/
def dictSet (fields : List (String × Json)) (k : String) (v : Json) :
    List (String × Json) :=
  if dictHasKey fields k then
    fields.map (fun kv => if kv.1 == k then (k, v) else kv)
  else
    fields ++ [(k, v)]

/-! ## A JSON decoder (the embedding of `json.loads`)

Fuel-based recursive descent; the fuel only bounds nesting depth, and
`jsonLoads` supplies more fuel than any input can need. -/

/-- Skip JSON whitespace (the four characters the Python decoder skips). -/
def jsonSkipWs : List Char → List Char
  | c :: cs =>
    if c = ' ' ∨ c = '\t' ∨ c = '\n' ∨ c = '\r' then jsonSkipWs cs else c :: cs
  | [] => []

/-- Decode one hex digit of a `\u` escape; `none` on a non-hex digit. -/
def jsonHexDig (x : Char) : Option Nat :=
  if x.isDigit then some (x.toNat - '0'.toNat)
  else if 'a' ≤ x ∧ x ≤ 'f' then some (x.toNat - 'a'.toNat + 10)
  else if 'A' ≤ x ∧ x ≤ 'F' then some (x.toNat - 'A'.toNat + 10)
  else none

/-- Decode a JSON string body (after the opening quote), returning the
decoded text and the input after the closing quote. -/
def jsonStrBody : List Char → Option (List Char × List Char)
  | [] => none
  | '"' :: rest => some ([], rest)
  | '\\' :: e :: rest =>
    match e with
    | '"' => (jsonStrBody rest).map (fun (s, r) => ('"' :: s, r))
    | '\\' => (jsonStrBody rest).map (fun (s, r) => ('\\' :: s, r))
    | '/' => (jsonStrBody rest).map (fun (s, r) => ('/' :: s, r))
    | 'b' => (jsonStrBody rest).map (fun (s, r) => ('\x08' :: s, r))
    | 'f' => (jsonStrBody rest).map (fun (s, r) => ('\x0c' :: s, r))
    | 'n' => (jsonStrBody rest).map (fun (s, r) => ('\n' :: s, r))
    | 'r' => (jsonStrBody rest).map (fun (s, r) => ('\r' :: s, r))
    | 't' => (jsonStrBody rest).map (fun (s, r) => ('\t' :: s, r))
    | 'u' =>
      match rest with
      | a :: b :: c' :: d :: rest' =>
        match jsonHexDig a, jsonHexDig b, jsonHexDig c', jsonHexDig d with
        | some w, some x, some y, some z =>
          (jsonStrBody rest').map
            (fun (s, r) => (Char.ofNat ((w * 16 + x) * 16 + y * 16 + z) :: s, r))
        | _, _, _, _ => none
      | _ => none
    | _ => none
  | c :: rest => (jsonStrBody rest).map (fun (s, r) => (c :: s, r))
termination_by l => l.length
decreasing_by all_goals simp_arith [List.length]

/-- Decode the raw text of a JSON number starting at the input head:
optional minus, digits, optional fraction, optional exponent. -/
def jsonNumRaw (input : List Char) : Option (List Char × List Char) :=
  let (sign, afterSign) : List Char × List Char :=
    match input with
    | '-' :: rest => (['-'], rest)
    | _ => ([], input)
  let intPart := afterSign.takeWhile (·.isDigit)
  let afterInt := afterSign.drop intPart.length
  if intPart = [] then none
  else
    let (frac, afterFrac) : List Char × List Char :=
      match afterInt with
      | '.' :: rest =>
        let ds := rest.takeWhile (·.isDigit)
        if ds = [] then ([], afterInt) else ('.' :: ds, rest.drop ds.length)
      | _ => ([], afterInt)
    let (expo, afterExp) : List Char × List Char :=
      match afterFrac with
      | e :: rest =>
        if e = 'e' ∨ e = 'E' then
          let (esign, rest') : List Char × List Char :=
            match rest with
            | '+' :: r => (['+'], r)
            | '-' :: r => (['-'], r)
            | _ => ([], rest)
          let ds := rest'.takeWhile (·.isDigit)
          if ds = [] then ([], afterFrac)
          else (e :: esign ++ ds, rest'.drop ds.length)
        else ([], afterFrac)
      | _ => ([], afterFrac)
    some (sign ++ intPart ++ frac ++ expo, afterExp)

mutual

/-- Decode one JSON value (fuel bounds nesting depth). -/
def jsonVal : Nat → List Char → Option (Json × List Char)
  | 0, _ => none
  | fuel + 1, input =>
    match jsonSkipWs input with
    | 'n' :: 'u' :: 'l' :: 'l' :: rest => some (.null, rest)
    | 't' :: 'r' :: 'u' :: 'e' :: rest => some (.bool true, rest)
    | 'f' :: 'a' :: 'l' :: 's' :: 'e' :: rest => some (.bool false, rest)
    | '"' :: rest =>
      (jsonStrBody rest).map (fun (s, r) => (.str (String.mk s), r))
    | '[' :: rest =>
      (match jsonSkipWs rest with
       | ']' :: rest' => some (.arr [], rest')
       | other =>
         match jsonArrItems fuel other with
         | some (xs, r) => some (.arr xs, r)
         | none => none)
    | '\x7b' :: rest =>
      (match jsonSkipWs rest with
       | '\x7d' :: rest' => some (.obj [], rest')
       | other =>
         match jsonObjItems fuel [] other with
         | some (fs, r) => some (.obj fs, r)
         | none => none)
    | other =>
      (jsonNumRaw other).map (fun (raw, r) => (.num (String.mk raw), r))

/-- Decode the elements of a non-empty array, positioned at an element. -/
def jsonArrItems : Nat → List Char → Option (List Json × List Char)
  | 0, _ => none
  | fuel + 1, input =>
    match jsonVal fuel input with
    | none => none
    | some (v, rest) =>
      match jsonSkipWs rest with
      | ',' :: rest' =>
        (match jsonArrItems fuel rest' with
         | some (vs, rest'') => some (v :: vs, rest'')
         | none => none)
      | ']' :: rest' => some ([v], rest')
      | _ => none

/-- Decode the members of a non-empty object, positioned at a key. -/
def jsonObjItems : Nat → List (String × Json) → List Char →
    Option (List (String × Json) × List Char)
  | 0, _, _ => none
  | fuel + 1, acc, input =>
    match jsonSkipWs input with
    | '"' :: rest =>
      (match jsonStrBody rest with
       | none => none
       | some (k, rest') =>
         match jsonSkipWs rest' with
         | ':' :: rest'' =>
           (match jsonVal fuel rest'' with
            | none => none
            | some (v, rest3) =>
              let acc' := dictSet acc (String.mk k) v
              match jsonSkipWs rest3 with
              | ',' :: rest4 => jsonObjItems fuel acc' rest4
              | '\x7d' :: rest4 => some (acc', rest4)
              | _ => none)
         | _ => none)
    | _ => none

end

/-- The embedding of Python `json.loads`: decode one value and require
only whitespace to follow; `none` models `json.JSONDecodeError`. -/
def jsonLoads (s : String) : Option Json :=
  match jsonVal (s.data.length + 1) s.data with
  | some (v, rest) => if jsonSkipWs rest = [] then some v else none
  | none => none

/-! ## Python dynamic operations on JSON values -/

/-- Python truthiness of a decoded JSON value (`if x:`). -/
def pyTruthy : Json → Bool
  | .null => false
  | .bool b => b
  | .str s => !s.isEmpty
  | .arr xs => !xs.isEmpty
  | .obj fs => !fs.isEmpty
  | .num raw =>
    -- a JSON number is zero iff every digit of its mantissa is 0
    (raw.data.takeWhile (fun c => c ≠ 'e' ∧ c ≠ 'E')).any
      (fun c => c.isDigit && c ≠ '0')

/-- Truthiness of an `Option Json` (Python `None` is falsy). -/
def pyTruthyOpt : Option Json → Bool
  | none => false
  | some j => pyTruthy j

/-- Python `a or b` on optional values: `a` when truthy, else `b`. -/
def pyOrOpt (a b : Option Json) : Option Json :=
  match a with
  | some v => if pyTruthy v then some v else b
  | none => b

/-- Python `needle in value`: key test on dicts, element test on lists,
substring test on strings; `TypeError` on the other JSON values. -/
def pyIn (needle : String) : Json → Except Exc Bool
  | .obj fields => .ok (dictHasKey fields needle)
  | .arr xs => .ok (xs.any (fun j => jsonBEq j (.str needle)))
  | .str t => .ok (strContains t needle)
  | _ => .error .typeError

/-- Python `value.get(k)`: `AttributeError` unless `value` is a dict. -/
def pyGetOpt (j : Json) (k : String) : Except Exc (Option Json) :=
  match j with
  | .obj fields => .ok (dictGet? fields k)
  | _ => .error .attributeError

/-- Python `value.get(k, default)`. -/
def pyGetD (j : Json) (k : String) (default : Json) : Except Exc Json :=
  match j with
  | .obj fields => .ok ((dictGet? fields k).getD default)
  | _ => .error .attributeError

/-- Python `for x in value`: elements of a list, keys of a dict,
characters of a string; `TypeError` otherwise. -/
def pyIterJson : Json → Except Exc (List Json)
  | .arr xs => .ok xs
  | .obj fields => .ok (fields.map (fun kv => Json.str kv.1))
  | .str s => .ok (s.data.map (fun c => Json.str (String.mk [c])))
  | _ => .error .typeError

/-! ## `find_zowe_executable` (opsdash_web.py, lines 75-98) -/

/-- The host environment consulted by `find_zowe_executable`:
`shutil.which` results, `platform.system()`, the two environment
variables, and the set of paths for which `os.path.exists` is true. -/
structure FindEnv where
  whichZowe : Option String
  system : String
  whichZoweCmd : Option String
  appdata : Option String
  localappdata : Option String
  existingPaths : List String
  deriving Repr, DecidableEq

/-- `os.path.join(a, b, c)` on the Windows path convention (the only
branch of the source that joins paths runs on Windows). -/
def winJoin (a b c : String) : String :=
  (if a = "" then "" else a ++ "\\") ++ b ++ "\\" ++ c

/-- `find_zowe_executable()`: PATH search, then Windows fallbacks, then
the bare command name. -/
def find_zowe_executable (e : FindEnv) : String :=
  match e.whichZowe with
  | some p => p
  | none =>
    if e.system = "Windows" then
      match e.whichZoweCmd with
      | some p => p
      | none =>
        let npm_paths := [
          winJoin (e.appdata.getD "") "npm" "zowe.cmd",
          winJoin (e.localappdata.getD "") "npm" "zowe.cmd",
          "C:\\Program Files\\nodejs\\zowe.cmd"]
        match npm_paths.find? (fun p => e.existingPaths.contains p) with
        | some p => p
        | none => "zowe"
    else "zowe"

/-! ## `run_zowe_cmd` (opsdash_web.py, lines 101-139) -/

/-- The outcome of the one `subprocess.run` call: a completed process
(any return code, captured stdout/stderr), or one of the exceptions the
source catches (`FileNotFoundError`, `subprocess.TimeoutExpired`, or any
other exception with its `str()` message). -/
inductive SubprocOutcome where
  | completed (returncode : Int) (stdout stderr : String)
  | fileNotFound
  | timeoutExpired
  | otherExc (msg : String)
  deriving Repr, DecidableEq

/-- The install-guidance message built on `FileNotFoundError`. -/
def zoweNotFoundMsg (zowe_exe : String) : String :=
  "Zowe CLI not found. Please install Zowe CLI and ensure it\x27s in your PATH.\n" ++
  "Install via: npm install -g @zowe/cli\n" ++
  "Or download from: https://www.zowe.org/cli.html\n" ++
  "Then verify with: zowe --version\n\n" ++
  "Python tried to find: " ++ zowe_exe

/-- The resolved argument vector: the first element `"zowe"` is replaced
by the path `find_zowe_executable` returned. -/
def resolveCmd (cmd_list : List String) (fe : FindEnv) : List String :=
  match cmd_list with
  | [] => []
  | c0 :: rest => (if c0 = "zowe" then find_zowe_executable fe else c0) :: rest

/-- `run_zowe_cmd(cmd_list)`: run the CLI and return parsed JSON or an
error dict.  `cmd_list[0]` on an empty list raises `IndexError` (it is
indexed before the `try` block); every caller passes a non-empty literal.
The subprocess outcome `o` is the external world's input. -/
def run_zowe_cmd (cmd_list : List String) (fe : FindEnv) (o : SubprocOutcome) :
    Except Exc Json :=
  match cmd_list with
  | [] => .error .indexError
  | _ :: _ =>
    match o with
    | .completed rc out err =>
      if rc ≠ 0 then
        .ok (Json.obj [("error", Json.str (pyOrStr err out))])
      else
        let output := pyStrip out
        if output = "" then
          .ok (Json.obj [("error", Json.str "Empty response from Zowe CLI")])
        else
          match jsonLoads output with
          | some j => .ok j
          | none =>
            .ok (Json.obj [("error",
              Json.str ("Invalid JSON: " ++ pyTake 200 out))])
    | .fileNotFound =>
      .ok (Json.obj [("error", Json.str (zoweNotFoundMsg (find_zowe_executable fe)))])
    | .timeoutExpired =>
      .ok (Json.obj [("error", Json.str "Command timed out")])
    | .otherExc m =>
      .ok (Json.obj [("error", Json.str m)])

/-! ## Domain query functions (opsdash_web.py, lines 151-306) -/

/-- `get_user_jobs(user)`: list JES jobs; pass an Invoker error through,
else extract the `data` list (or `[]` when it is not a list). -/
def get_user_jobs (user : String) (fe : FindEnv) (o : SubprocOutcome) :
    Except Exc Json := do
  let data ← run_zowe_cmd
    ["zowe", "zos-jobs", "list", "jobs", "--owner", user, "--rfj"] fe o
  if (← pyIn "error" data) then
    return data
  let jobs ← pyGetD data "data" (Json.arr [])
  match jobs with
  | Json.arr _ => return jobs
  | _ => return Json.arr []

/-- The per-item name resolution shared by the two listing adapters:
`item.get(k1) or item.get(k2)`, then the `if <name>:` truthiness filter
(`none` = the item contributes nothing). -/
def extractName (k1 k2 : String) (item : Json) : Except Exc (Option Json) := do
  let g1 ← pyGetOpt item k1
  let g2 ← pyGetOpt item k2
  match pyOrOpt g1 g2 with
  | some v => .ok (if pyTruthy v then some v else none)
  | none => .ok none

/-- The body of the `for item in items` loop of `get_datasets`:
`dsname = item.get("dsname") or item.get("name"); if dsname: append`. -/
def collectDsnames : List Json → Except Exc (List Json)
  | [] => .ok []
  | item :: rest => do
    let picked ← extractName "dsname" "name" item
    let tail ← collectDsnames rest
    match picked with
    | some v => .ok (v :: tail)
    | none => .ok tail

/-- `get_datasets(hlq)`: list datasets under an HLQ; pass an Invoker
error through, else collect the item names. -/
def get_datasets (hlq : String) (fe : FindEnv) (o : SubprocOutcome) :
    Except Exc Json := do
  let data ← run_zowe_cmd
    ["zowe", "zos-files", "list", "data-set", hlq ++ ".*", "--rfj"] fe o
  if (← pyIn "error" data) then
    return data
  let d ← pyGetD data "data" (Json.obj [])
  let api ← pyGetD d "apiResponse" (Json.obj [])
  let items ← pyGetD api "items" (Json.arr [])
  let iter ← pyIterJson items
  let datasets ← collectDsnames iter
  return Json.arr datasets

/-- The body of the `for item in items` loop of `get_pds_members`:
`member = item.get("member") or item.get("memberName"); if member: append`. -/
def collectMembers : List Json → Except Exc (List Json)
  | [] => .ok []
  | item :: rest => do
    let picked ← extractName "member" "memberName" item
    let tail ← collectMembers rest
    match picked with
    | some v => .ok (v :: tail)
    | none => .ok tail

/-- `get_pds_members(pds_name)`: list PDS members; on an Invoker error it
returns the empty list (`return []`), else collects the member names. -/
def get_pds_members (pds_name : String) (fe : FindEnv) (o : SubprocOutcome) :
    Except Exc Json := do
  let data ← run_zowe_cmd
    ["zowe", "zos-files", "list", "all-members", pds_name, "--rfj"] fe o
  if (← pyIn "error" data) then
    return Json.arr []
  let d ← pyGetD data "data" (Json.obj [])
  let api ← pyGetD d "apiResponse" (Json.obj [])
  let items ← pyGetD api "items" (Json.arr [])
  let iter ← pyIterJson items
  let members ← collectMembers iter
  return Json.arr members

/-- `get_job_status(job_id, user_id)`: a direct Invoker passthrough. -/
def get_job_status (job_id user_id : String) (fe : FindEnv) (o : SubprocOutcome) :
    Except Exc Json :=
  run_zowe_cmd
    ["zowe", "zos-jobs", "view", "job-status-by-jobid", job_id, "--rfj"] fe o

/-- `get_job_spool_files(job_id, user_id)`: a direct Invoker passthrough. -/
def get_job_spool_files (job_id user_id : String) (fe : FindEnv) (o : SubprocOutcome) :
    Except Exc Json :=
  run_zowe_cmd
    ["zowe", "zos-jobs", "list", "spool-files-by-jobid", job_id, "--rfj"] fe o

/-- A hexadecimal digit character (lower case). -/
def hexDigitChar (n : Nat) : Char :=
  if n < 10 then Char.ofNat ('0'.toNat + n) else Char.ofNat ('a'.toNat + (n - 10))

/-- One character of a Python string `repr` under quote character `q`:
backslash and the quote are escaped, `\n`/`\r`/`\t` use their short
escapes, other control characters (and DEL) use `\xhh`. -/
def pyReprEscape (q c : Char) : String :=
  if c = '\\' then "\\\\"
  else if c = q then "\\" ++ String.mk [q]
  else if c = '\n' then "\\n"
  else if c = '\r' then "\\r"
  else if c = '\t' then "\\t"
  else if c.toNat < 0x20 ∨ c.toNat = 0x7f then
    "\\x" ++ String.mk [hexDigitChar (c.toNat / 16), hexDigitChar (c.toNat % 16)]
  else String.mk [c]

/-- Python `repr` of a string: single quotes, switching to double quotes
when the string contains a single quote but no double quote. -/
def pyStrQuote (s : String) : String :=
  let q : Char := if s.data.contains '\x27' ∧ ¬ s.data.contains '"' then '"' else '\x27'
  String.mk [q] ++ String.join (s.data.map (pyReprEscape q)) ++ String.mk [q]

mutual

/-- Python `str()` of a parsed JSON value (dict/list `repr` formatting).
Documented idealizations on this success-path helper: a number is
rendered from its raw JSON text (exact for canonical integers; CPython
re-formats floats), and every character from space upward except DEL
counts as printable. -/
def pyStr : Json → String
  | .null => "None"
  | .bool true => "True"
  | .bool false => "False"
  | .num raw => raw
  | .str s => pyStrQuote s
  | .arr xs => "[" ++ pyStrList xs ++ "]"
  | .obj fs => "\x7b" ++ pyStrFields fs ++ "\x7d"

/-- The comma-separated elements of a list `repr`. -/
def pyStrList : List Json → String
  | [] => ""
  | [x] => pyStr x
  | x :: xs => pyStr x ++ ", " ++ pyStrList xs

/-- The comma-separated `key: value` members of a dict `repr`. -/
def pyStrFields : List (String × Json) → String
  | [] => ""
  | [(k, v)] => pyStrQuote k ++ ": " ++ pyStr v
  | (k, v) :: fs => pyStrQuote k ++ ": " ++ pyStr v ++ ", " ++ pyStrFields fs

end

/-- Python `isinstance(x, dict)` on an optional JSON value. -/
def pyIsInstanceDict : Option Json → Bool
  | some (Json.obj _) => true
  | _ => false

/-- `get_job_spool_file_content(job_id, spool_id, user_id)`: pass an
Invoker error through unchanged, else dig the spool text out of the
response (`stdout`, then `data.stdout`, then `data.content`, then the
`str()` rendering of `data`) and wrap it as `{content, raw}`.  The
`spool_id` parameter is the `str(spool_id)` the source interpolates. -/
def get_job_spool_file_content (job_id spool_id user_id : String)
    (fe : FindEnv) (o : SubprocOutcome) : Except Exc Json := do
  let result ← run_zowe_cmd
    ["zowe", "zos-jobs", "view", "spool-file-by-id", job_id, spool_id, "--rfj"] fe o
  if (← pyIn "error" result) then
    return result
  let g1 ← pyGetD result "stdout" (Json.str "")
  let content ←
    if pyTruthy g1 then pure g1
    else do
      let d ← pyGetD result "data" (Json.obj [])
      pyGetD d "stdout" (Json.str "")
  let dOpt ← pyGetOpt result "data"
  let content2 ←
    if !(pyTruthy content) && pyIsInstanceDict dOpt then do
      let d ← pyGetD result "data" (Json.obj [])
      let c1 ← pyGetD d "content" (Json.str "")
      if pyTruthy c1 then pure c1
      else do
        let d2 ← pyGetD result "data" (Json.obj [])
        pure (Json.str (pyStr d2))
    else pure content
  return Json.obj [("content", content2), ("raw", result)]

/-! ## Mutation functions (opsdash_web.py, lines 209-279)

These are run against an explicit state: the local filesystem (path to
byte-content), a log of file writes, a log of `os.unlink` calls, a log of
subprocess invocations, and the queue of outcomes the external world will
answer the successive subprocess invocations with. -/

/-- The mutable world of the mutation functions. -/
structure St where
  fs : List (String × List UInt8)
  writes : List (String × List UInt8)
  unlinks : List String
  calls : List (List String)
  outcomes : List SubprocOutcome
  deriving Repr

/-- Write `bytes` to `path` (creating or truncating the file) and record
the write. -/
def fsWrite (st : St) (path : String) (bytes : List UInt8) : St :=
  { st with
    fs := (path, bytes) :: st.fs.filter (fun e => e.1 ≠ path),
    writes := st.writes ++ [(path, bytes)] }

/-- `os.path.exists(path)`. -/
def fsExists (st : St) (path : String) : Bool :=
  st.fs.any (fun e => e.1 == path)

/-- `os.unlink(path)`, recording the call. -/
def fsUnlink (st : St) (path : String) : St :=
  { st with
    fs := st.fs.filter (fun e => e.1 ≠ path),
    unlinks := st.unlinks ++ [path] }

/-- The `finally` block shared by both mutation functions:
`if os.path.exists(temp_path): os.unlink(temp_path)`. -/
def cleanupTemp (st : St) (temp_path : String) : St :=
  if fsExists st temp_path then fsUnlink st temp_path else st

/-- A stateful `run_zowe_cmd` call: consume the next subprocess outcome
and record the resolved invocation.  (On an empty argument vector the
`IndexError` fires before the subprocess is spawned, so nothing is
consumed or recorded.) -/
def run_zowe_cmd_st (cmd_list : List String) (fe : FindEnv) (st : St) :
    Except Exc Json × St :=
  match cmd_list with
  | [] => (.error .indexError, st)
  | _ :: _ =>
    let o := st.outcomes.headD (.otherExc "")
    ((run_zowe_cmd cmd_list fe o),
     { st with
       outcomes := st.outcomes.tail,
       calls := st.calls ++ [resolveCmd cmd_list fe] })

/-- The line-ending transform of `upload_cobol_to_dataset` (line 215):
`content.replace('\r\n', '\n').replace('\r', '\n').replace('\n', '\r\n')`. -/
def cobolCrlfString (content : String) : String :=
  pyReplaceS (pyReplaceS (pyReplaceS content "\r\n" "\n") "\r" "\n") "\n" "\r\n"

/-- The bytes written to the temporary file by `upload_cobol_to_dataset`:
the UTF-8 encoding of the CRLF-transformed content. -/
def cobol_bytes (content : String) : List UInt8 :=
  (cobolCrlfString content).toUTF8.data.toList

/-- The upload argument vector of `upload_cobol_to_dataset`. -/
def uploadCobolCmd (temp_path dsname member : String) : List String :=
  ["zowe", "zos-files", "upload", "file-to-data-set",
   temp_path, dsname ++ "(" ++ member ++ ")", "--rfj"]

/-- `upload_cobol_to_dataset(dsname, member, content, user_id)`: write the
CRLF-normalized content to a fresh temporary file (`temp_path`, supplied
by `tempfile.NamedTemporaryFile`), upload it via the CLI, and delete the
temporary file in the `finally` block. -/
def upload_cobol_to_dataset (dsname member content user_id : String)
    (temp_path : String) (fe : FindEnv) (st : St) : Except Exc Json × St :=
  let st1 := fsWrite st temp_path (cobol_bytes content)
  let (result, st2) := run_zowe_cmd_st (uploadCobolCmd temp_path dsname member) fe st1
  (result, cleanupTemp st2 temp_path)

/-- Zero-padded 4-digit decimal rendering of `n % 10000`
(the f-string `f"TEMP{int(time.time()) % 10000:04d}"`). -/
def pad4 (n : Nat) : String :=
  let s := toString (n % 10000)
  String.mk (List.replicate (4 - s.data.length) '0') ++ s

/-- The generated JCL member name: `f"TEMP{int(time.time()) % 10000:04d}"[:8]`. -/
def genJclMemberName (timeVal : Nat) : String :=
  pyTake 8 ("TEMP" ++ pad4 timeVal)

/-- The member name `submit_jcl_job` uses: the caller's name when it is
truthy, else the generated time-derived name
(`if not jcl_member_name: jcl_member_name = ...`). -/
def submitMemberName (jcl_member_name : Option String) (timeVal : Nat) : String :=
  match jcl_member_name with
  | some m => if m = "" then genJclMemberName timeVal else m
  | none => genJclMemberName timeVal

/-- The upload argument vector of `submit_jcl_job`. -/
def submitUploadCmd (temp_path jcl_ds member : String) : List String :=
  ["zowe", "zos-files", "upload", "file-to-data-set",
   temp_path, jcl_ds ++ "(" ++ member ++ ")", "--rfj"]

/-- The submit argument vector of `submit_jcl_job`. -/
def submitSubmitCmd (jcl_ds member : String) : List String :=
  ["zowe", "zos-jobs", "submit", "data-set",
   jcl_ds ++ "(" ++ member ++ ")", "--rfj"]

/-- `submit_jcl_job(jcl_content, user_id, jcl_member_name=None)`: generate
a member name when none (or a falsy one) is supplied, normalize line
endings to LF, write the JCL to a fresh temporary file, upload it into
`{user_id}.JCL(member)`, and, unless the upload reported an error, submit
that member; the `finally` block deletes the temporary file on every exit
path (including a propagating exception). -/
def submit_jcl_job (jcl_content user_id : String) (jcl_member_name : Option String)
    (timeVal : Nat) (temp_path : String) (fe : FindEnv) (st : St) :
    Except Exc Json × St :=
  let memberName := submitMemberName jcl_member_name timeVal
  let jcl_normalized := pyReplaceS (pyReplaceS jcl_content "\r\n" "\n") "\r" "\n"
  let st1 := fsWrite st temp_path jcl_normalized.toUTF8.data.toList
  let jcl_ds := user_id ++ ".JCL"
  let (upload_result, st2) :=
    run_zowe_cmd_st (submitUploadCmd temp_path jcl_ds memberName) fe st1
  match upload_result with
  | .error e => (.error e, cleanupTemp st2 temp_path)
  | .ok ur =>
    match pyIn "error" ur with
    | .error e => (.error e, cleanupTemp st2 temp_path)
    | .ok true => (.ok ur, cleanupTemp st2 temp_path)
    | .ok false =>
      let (result, st3) :=
        run_zowe_cmd_st (submitSubmitCmd jcl_ds memberName) fe st2
      (result, cleanupTemp st3 temp_path)

/-! ## `generate_compile_jcl` (opsdash_web.py, lines 312-334) -/

/-- The job name field: `(program_name[:8]).ljust(8)`. -/
def jclJobName (program_name : String) : String :=
  pyLjust 8 (pyTake 8 program_name)

/-- The program name field: `program_name[:8]` (no padding). -/
def jclPgmName (program_name : String) : String :=
  pyTake 8 program_name

/-- `generate_compile_jcl(user_id, program_name, source_ds, load_ds)`:
pure string templating of the IGYWCL compile-and-run JCL, joined with
explicit CRLF line endings. -/
def generate_compile_jcl (user_id program_name source_ds load_ds : String) :
    String :=
  let job_name := jclJobName program_name
  let pgm_name := jclPgmName program_name
  let jcl_lines := [
    "//" ++ job_name ++ " JOB (ACCT),\x27COMPILE\x27,CLASS=A,MSGCLASS=X,MSGLEVEL=(1,1)",
    "//*  Compile and run COBOL program " ++ pgm_name,
    "//COBRUN  EXEC IGYWCL",
    "//COBOL.SYSIN  DD DSN=" ++ source_ds ++ "(" ++ pgm_name ++ "),DISP=SHR",
    "//LKED.SYSLMOD DD DSN=" ++ load_ds ++ "(" ++ pgm_name ++ "),DISP=SHR",
    "//*  Run the compiled program",
    "//RUN     EXEC PGM=" ++ pgm_name,
    "//STEPLIB   DD DSN=" ++ load_ds ++ ",DISP=SHR",
    "//SYSOUT    DD SYSOUT=*",
    "//CEEDUMP   DD DUMMY",
    "//SYSUDUMP  DD DUMMY"]
  String.intercalate "\r\n" jcl_lines

/-! ## `get_pi_info` (pi_enhanced_dashboard.py, lines 53-113)

Every probe sits inside `try: ... except: <marker>`, so the function is
total: a failing read degrades to `"N/A"` (or `is_pi = False`).  Each
probe's input is `none` when the read raises, `some text` when it
returns text. -/

/-- The host reads `get_pi_info` performs: `/proc/cpuinfo`, the thermal
zone file, `/proc/uptime`, and the stdout of `free -m` and `df -h /`
(`none` = the read or subprocess raised). -/
structure PiEnv where
  cpuinfo : Option String
  thermal : Option String
  uptimeFile : Option String
  freeOut : Option String
  dfOut : Option String
  deriving Repr, DecidableEq

/-- The dict `get_pi_info` returns.  `model` and `disk` are the two keys
that can be absent (`none`); the others are always assigned. -/
structure PiInfo where
  is_pi : Bool
  model : Option String
  cpu_temp : String
  uptime : String
  memory : String
  disk : Option String
  deriving Repr, DecidableEq

/-- Python `int(s)`: optional surrounding whitespace, optional sign, at
least one digit; `none` models `ValueError`. -/
def pyParseInt (s : String) : Option Int :=
  let t := (pyStrip s).data
  let (sgn, ds) : Int × List Char :=
    match t with
    | '-' :: r => (-1, r)
    | '+' :: r => (1, r)
    | r => (1, r)
  if ds ≠ [] ∧ ds.all (·.isDigit) then
    some (sgn * (ds.foldl (fun a c => a * 10 + (c.toNat - '0'.toNat)) 0 : Nat))
  else none

/-- Python `float(s)` as an exact rational: optional whitespace and sign,
decimal digits with optional fraction and exponent.  (`inf`/`nan` fail
here; in the source they fail one line later, at `int(...)`, with the
same observable `except:` fallback.) -/
def pyParseFloat (s : String) : Option ℚ :=
  let t := (pyStrip s).data
  let (sgn, ds) : ℚ × List Char :=
    match t with
    | '-' :: r => (-1, r)
    | '+' :: r => (1, r)
    | r => (1, r)
  let intPart := ds.takeWhile (·.isDigit)
  let afterInt := ds.drop intPart.length
  let (fracPart, afterFrac) : List Char × List Char :=
    match afterInt with
    | '.' :: r => (r.takeWhile (·.isDigit), r.drop (r.takeWhile (·.isDigit)).length)
    | _ => ([], afterInt)
  let (expOk, expVal, afterExp) : Bool × Int × List Char :=
    match afterFrac with
    | e :: r =>
      if e = 'e' ∨ e = 'E' then
        let (esgn, r') : Int × List Char :=
          match r with
          | '+' :: r2 => (1, r2)
          | '-' :: r2 => (-1, r2)
          | r2 => (1, r2)
        let eds := r'.takeWhile (·.isDigit)
        if eds = [] then (false, 0, afterFrac)
        else (true, esgn * (eds.foldl (fun a c => a * 10 + (c.toNat - '0'.toNat)) 0 : Nat),
              r'.drop eds.length)
      else (false, 0, afterFrac)
    | [] => (true, 0, [])
  if intPart ++ fracPart = [] ∨ afterExp ≠ [] ∨ ¬ expOk then none
  else
    let mant : Nat :=
      (intPart ++ fracPart).foldl (fun a c => a * 10 + (c.toNat - '0'.toNat)) 0
    let base : ℚ := sgn * (mant : ℚ) / ((10 : ℚ) ^ fracPart.length)
    some (if 0 ≤ expVal then base * (10 : ℚ) ^ expVal.toNat
          else base / (10 : ℚ) ^ (-expVal).toNat)

/-- The f-string `f"{i / 1000.0:.1f}"`: one decimal place, ties to even
(exact decimal rounding; CPython rounds the nearest binary double). -/
def format1f (i : Int) : String :=
  let n := i.natAbs
  let q := n / 100
  let r := n % 100
  let t := if r > 50 then q + 1 else if r < 50 then q
           else if q % 2 = 1 then q + 1 else q
  (if i < 0 then "-" else "") ++ toString (t / 10) ++ "." ++ toString (t % 10)

/-- The Raspberry-Pi detection block of `get_pi_info`: returns
`(is_pi, model)`. -/
def piDetect (cpuinfo : Option String) : Bool × Option String :=
  match cpuinfo with
  | none => (false, none)
  | some text =>
    if strContains text "Raspberry Pi" || strContains text "BCM" then
      match (pySplitOn text "\n").find?
          (fun line => strContains line "Model" || strContains line "model name") with
      | some line => (true, some (pyStrip ((pySplitOn line ":").getLastD "")))
      | none => (true, none)
    else (false, none)

/-- The CPU-temperature probe: `int(read) / 1000.0` formatted `.1f`. -/
def piCpuTemp (thermal : Option String) : String :=
  match thermal with
  | none => "N/A"
  | some s =>
    match pyParseInt s with
    | none => "N/A"
    | some i => format1f i ++ "°C"

/-- The uptime probe: `float(read.split()[0])`, then whole days and
hours (`//` and `%` are Python's floor division and modulo). -/
def piUptime (uptimeFile : Option String) : String :=
  match uptimeFile with
  | none => "N/A"
  | some s =>
    match (pySplitWs s)[0]? with
    | none => "N/A"
    | some tok =>
      match pyParseFloat tok with
      | none => "N/A"
      | some u =>
        let days : Int := Rat.floor (u / 86400)
        let hours : Int := Rat.floor ((u - 86400 * days) / 3600)
        toString days ++ "d " ++ toString hours ++ "h"

/-- The memory probe: parse row 1 of `free -m` output; any index, parse,
or division-by-zero error degrades to `"N/A"`. -/
def piMemory (freeOut : Option String) : String :=
  match freeOut with
  | none => "N/A"
  | some out =>
    match (pySplitOn out "\n")[1]? with
    | none => "N/A"
    | some mem_line =>
      let parts := pySplitWs mem_line
      match parts[1]?, parts[2]? with
      | some t, some u =>
        match pyParseInt t, pyParseInt u with
        | some total_mem, some used_mem =>
          if total_mem = 0 then "N/A"
          else
            toString used_mem ++ "MB / " ++ toString total_mem ++ "MB (" ++
              toString (Int.fdiv (used_mem * 100) total_mem) ++ "%)"
        | _, _ => "N/A"
      | _, _ => "N/A"

/-- The disk probe: parse row 1 of `df -h /` output.  When the output has
no second line the source assigns nothing (the key stays absent, `none`);
an index error inside the branch degrades to `"N/A"`. -/
def piDisk (dfOut : Option String) : Option String :=
  match dfOut with
  | none => some "N/A"
  | some out =>
    let lines := pySplitOn out "\n"
    if lines.length > 1 then
      let parts := pySplitWs (lines.getD 1 "")
      match parts[2]?, parts[1]?, parts[4]? with
      | some p2, some p1, some p4 =>
        some (p2 ++ " / " ++ p1 ++ " (" ++ p4 ++ ")")
      | _, _, _ => some "N/A"
    else none

/-- `get_pi_info()`: assemble the info dict from the five probes. -/
def get_pi_info (e : PiEnv) : PiInfo :=
  let (is_pi, model) := piDetect e.cpuinfo
  { is_pi := is_pi
    model := model
    cpu_temp := piCpuTemp e.thermal
    uptime := piUptime e.uptimeFile
    memory := piMemory e.freeOut
    disk := piDisk e.dfOut }

/-! ## `check_mainframe_connection` (pi_enhanced_dashboard.py, lines 190-205) -/

/-- The names defined at the top level of the `opsdash_web` module (its
functions and imported names), i.e. the attributes a module-attribute
lookup can find. -/
def opsdash_web_module_attrs : List String :=
  ["st", "subprocess", "json", "os", "platform", "shutil", "tempfile",
   "datetime",
   "find_zowe_executable", "run_zowe_cmd", "get_system_info",
   "get_user_jobs", "get_datasets", "get_pds_members",
   "upload_cobol_to_dataset", "submit_jcl_job", "get_job_status",
   "get_job_spool_files", "get_job_spool_file_content",
   "generate_compile_jcl", "main"]

/-- `getattr(opsdash_web, name)` succeeds iff the module defines `name`. -/
def opsdash_web_has_attr (name : String) : Bool :=
  opsdash_web_module_attrs.contains name

/-- `check_mainframe_connection()`: the body looks up
`opsdash_web.get_zowe_profile_name` — a name the module does not define —
so an `AttributeError` is raised before the subprocess runs, and the bare
`except:` turns every call into `False`.  Had the attribute existed, the
result would be `returncode == 0` of the 10-second status probe. -/
def check_mainframe_connection (fe : FindEnv) (o : SubprocOutcome) : Bool :=
  let _zowe_exe := find_zowe_executable fe
  if opsdash_web_has_attr "get_zowe_profile_name" then
    match o with
    | .completed rc _ _ => rc == 0
    | _ => false
  else
    false

/-! ## The job-history metrics store (pi_enhanced_dashboard.py, lines 116-187)

The SQLite table is modelled as the list of its rows in insertion order;
the database file as `Option` of that list (`none` = the file does not
exist). -/

/-- One row of the `job_history` table (all columns are TEXT). -/
structure JobRow where
  timestamp : String
  job_id : String
  job_name : String
  status : String
  return_code : String
  user_id : String
  deriving Repr, DecidableEq

/-- `log_job_status(...)`: insert one row (timestamp =
`datetime.now().isoformat()`, passed here as `now`) and commit. -/
def log_job_status (now job_id job_name status return_code user_id : String)
    (table : List JobRow) : List JobRow :=
  table ++ [{ timestamp := now, job_id := job_id, job_name := job_name,
              status := status, return_code := return_code, user_id := user_id }]

/-- Insert a row into a list sorted by timestamp descending. -/
def insertTsDesc (r : JobRow) : List JobRow → List JobRow
  | [] => [r]
  | x :: xs =>
    if x.timestamp < r.timestamp then r :: x :: xs else x :: insertTsDesc r xs

/-- `ORDER BY timestamp DESC`: sort the rows by the text column in
descending (byte-lexicographic) order. -/
def sortTsDesc : List JobRow → List JobRow
  | [] => []
  | r :: rs => insertTsDesc r (sortTsDesc rs)

/-- `LIMIT n` with SQLite semantics: a negative limit means no bound. -/
def sqlLimit (limit : Int) (rows : List JobRow) : List JobRow :=
  if limit < 0 then rows else rows.take limit.toNat

/-- `get_recent_job_history(limit)`: `[]` when the database file does not
exist, else the five selected columns of the rows ordered by timestamp
descending, limited. -/
def get_recent_job_history (limit : Int) (db : Option (List JobRow)) :
    List (String × String × String × String × String) :=
  match db with
  | none => []
  | some rows =>
    (sqlLimit limit (sortTsDesc rows)).map
      (fun r => (r.timestamp, r.job_id, r.job_name, r.status, r.return_code))

/-! ## Specification-side line-break normalization

`crlfSpec` renders the spec's words for the upload transform — "every
line break of the input (CRLF, lone CR, or lone LF) has been replaced by
exactly one CRLF pair" — as a one-pass scanner, to be compared with the
source's three-step `replace` chain `cobolCrlfString`. -/

/-- Spec-modelled: replace each line break (CRLF, CR, or LF) of the
input by exactly one CRLF pair. -/
def crlfSpec : List Char → List Char
  | [] => []
  | '\r' :: '\n' :: cs => '\r' :: '\n' :: crlfSpec cs
  | '\r' :: cs => '\r' :: '\n' :: crlfSpec cs
  | '\n' :: cs => '\r' :: '\n' :: crlfSpec cs
  | c :: cs => c :: crlfSpec cs

/-- `crlfSpec` on `String`. -/
def crlfSpecStr (s : String) : String :=
  String.mk (crlfSpec s.data)

/-- Normalize every line break to a single LF (the intermediate state
after the first two `replace` steps). -/
def normLF : List Char → List Char
  | [] => []
  | '\r' :: '\n' :: cs => '\n' :: normLF cs
  | '\r' :: cs => '\n' :: normLF cs
  | c :: cs => c :: normLF cs

/-- Expand every LF to CRLF (the third `replace` step, on CR-free
input). -/
def expandLF : List Char → List Char
  | [] => []
  | '\n' :: cs => '\r' :: '\n' :: expandLF cs
  | c :: cs => c :: expandLF cs

/-- No lone line-break characters: every CR starts a CRLF pair and every
LF closes one. -/
def goodBreaks : List Char → Bool
  | [] => true
  | '\r' :: '\n' :: cs => goodBreaks cs
  | '\r' :: _ => false
  | '\n' :: _ => false
  | _ :: cs => goodBreaks cs

/-! ## Concrete inputs for the closed witness theorems -/

/-- A concrete host environment used by the closed witness theorems. -/
def fe0 : FindEnv := ⟨none, "Linux", none, none, none, []⟩

/-- A concrete starting state whose single queued outcome is a timeout,
used by the closed witness theorems. -/
def st0 : St := ⟨[], [], [], [], [.timeoutExpired]⟩

/-- A fully failing host environment, for the C8 witness. -/
def piEnvAllFail : PiEnv := ⟨none, none, none, none, none⟩

/-! ## Lemmas about the `replace` chain -/

theorem pyReplace_nil (pat rep : List Char) : pyReplace pat rep [] = [] := by
  simp [pyReplace]

theorem pyReplace_single (a : Char) (rep : List Char) (c : Char) (cs : List Char) :
    pyReplace [a] rep (c :: cs) =
      if c = a then rep ++ pyReplace [a] rep cs else c :: pyReplace [a] rep cs := by
  rw [pyReplace]
  by_cases h : c = a
  · subst h
    simp [List.isPrefixOf]
  · simp [List.isPrefixOf, h]
    intro h'
    exact absurd h'.symm h

theorem r1_crlf (cs : List Char) :
    pyReplace ['\r', '\n'] ['\n'] ('\r' :: '\n' :: cs) =
      '\n' :: pyReplace ['\r', '\n'] ['\n'] cs := by
  rw [pyReplace]
  simp [List.isPrefixOf]

theorem r1_not_cr (c : Char) (cs : List Char) (h : c ≠ '\r') :
    pyReplace ['\r', '\n'] ['\n'] (c :: cs) = c :: pyReplace ['\r', '\n'] ['\n'] cs := by
  rw [pyReplace]
  simp [List.isPrefixOf]
  intro h'
  exact absurd h'.symm h

theorem r1_cr_not_lf (c : Char) (cs : List Char) (h : c ≠ '\n') :
    pyReplace ['\r', '\n'] ['\n'] ('\r' :: c :: cs) =
      '\r' :: pyReplace ['\r', '\n'] ['\n'] (c :: cs) := by
  rw [pyReplace]
  simp [List.isPrefixOf]
  intro h'
  exact absurd h'.symm h

theorem r1_cr_nil :
    pyReplace ['\r', '\n'] ['\n'] ['\r'] = ['\r'] := by
  rw [pyReplace]
  simp [List.isPrefixOf, pyReplace_nil]

/-- Steps one and two of the chain normalize every break to LF. -/
theorem stage12 (l : List Char) :
    pyReplace ['\r'] ['\n'] (pyReplace ['\r', '\n'] ['\n'] l) = normLF l := by
  induction l using normLF.induct with
  | case1 => simp [pyReplace_nil, normLF]
  | case2 cs ih =>
    rw [r1_crlf, normLF, pyReplace_single]
    simp [ih]
  | case3 cs h ih =>
    cases cs with
    | nil =>
      rw [r1_cr_nil, pyReplace_single]
      simp [pyReplace_nil, normLF]
    | cons c cs' =>
      have hc : c ≠ '\n' := fun hh => h cs' (by rw [hh])
      rw [r1_cr_not_lf c cs' hc, pyReplace_single]
      simp [ih, normLF, hc]
  | case4 c cs h1 h2 ih =>
    have hc : c ≠ '\r' := fun hh => h2 hh
    rw [r1_not_cr c cs hc, pyReplace_single]
    simp [ih, normLF, hc]

theorem normLF_no_cr (l : List Char) : '\r' ∉ normLF l := by
  induction l using normLF.induct with
  | case1 => simp [normLF]
  | case2 cs ih =>
    simp only [normLF, List.mem_cons]
    rintro (hh | hh)
    · exact absurd hh (by decide)
    · exact ih hh
  | case3 cs h ih =>
    cases cs with
    | nil => simp [normLF]
    | cons c cs' =>
      have hc : c ≠ '\n' := fun hh => h cs' (by rw [hh])
      simp only [normLF, hc, List.mem_cons]
      rintro (hh | hh)
      · exact absurd hh (by decide)
      · exact ih (by simpa [normLF] using hh)
  | case4 c cs h1 h2 ih =>
    have hc : c ≠ '\r' := fun hh => h2 hh
    simp only [normLF, hc, List.mem_cons]
    rintro (hh | hh)
    · exact absurd hh (Ne.symm hc)
    · exact ih hh

/-- Step three of the chain expands every LF to CRLF (on CR-free input). -/
theorem stage3 (l : List Char) (h : '\r' ∉ l) :
    pyReplace ['\n'] ['\r', '\n'] l = expandLF l := by
  induction l using expandLF.induct with
  | case1 => simp [pyReplace_nil, expandLF]
  | case2 cs ih =>
    rw [pyReplace_single]
    simp only [List.mem_cons] at h
    simp [expandLF, ih (fun hh => h (Or.inr hh))]
  | case3 c cs hc ih =>
    have hc' : c ≠ '\n' := fun hh => hc hh
    rw [pyReplace_single]
    simp only [List.mem_cons] at h
    simp [expandLF, hc', ih (fun hh => h (Or.inr hh))]

theorem expand_norm (l : List Char) : expandLF (normLF l) = crlfSpec l := by
  induction l using crlfSpec.induct with
  | case1 => simp [normLF, expandLF, crlfSpec]
  | case2 cs ih => simp [normLF, expandLF, crlfSpec, ih]
  | case3 cs h ih =>
    cases cs with
    | nil => simp [normLF, expandLF, crlfSpec]
    | cons c cs' =>
      have hc : c ≠ '\n' := fun hh => h cs' (by rw [hh])
      simp [normLF, expandLF, crlfSpec, hc, ih]
  | case4 cs ih =>
    simp [normLF, expandLF, crlfSpec, ih]
  | case5 c cs h1 h2 h3 ih =>
    have hcr : c ≠ '\r' := fun hh => h2 hh
    have hlf : c ≠ '\n' := fun hh => h3 hh
    simp [normLF, expandLF, crlfSpec, hcr, hlf, ih]

theorem good_expand (l : List Char) (h : '\r' ∉ l) :
    goodBreaks (expandLF l) = true := by
  induction l using expandLF.induct with
  | case1 => simp [expandLF, goodBreaks]
  | case2 cs ih =>
    simp only [List.mem_cons] at h
    simp [expandLF, goodBreaks, ih (fun hh => h (Or.inr hh))]
  | case3 c cs hc ih =>
    have hlf : c ≠ '\n' := fun hh => hc hh
    simp only [List.mem_cons] at h
    have hcr : c ≠ '\r' := fun hh => h (Or.inl hh.symm)
    simp [expandLF, goodBreaks, hlf, hcr, ih (fun hh => h (Or.inr hh))]

/-- The source's three-step `replace` chain equals the spec's one-pass
CRLF normalization. -/
theorem cobol_transform_eq (s : String) : cobolCrlfString s = crlfSpecStr s := by
  unfold cobolCrlfString crlfSpecStr pyReplaceS
  congr 1
  show pyReplace "\n".data "\r\n".data
      (pyReplace "\r".data "\n".data
        (pyReplace "\r\n".data "\n".data s.data)) = crlfSpec s.data
  have h1 : pyReplace "\r".data "\n".data
      (pyReplace "\r\n".data "\n".data s.data) = normLF s.data := stage12 s.data
  rw [h1, stage3 (normLF s.data) (normLF_no_cr s.data), expand_norm]


/-- `run_zowe_cmd` ignores the tail of a non-empty argument vector when
computing its result (the vector only names the subprocess invocation). -/
theorem run_zowe_cmd_cmd_irrel (c c' : String) (r r' : List String)
    (fe : FindEnv) (o : SubprocOutcome) :
    run_zowe_cmd (c :: r) fe o = run_zowe_cmd (c' :: r') fe o := rfl

/-- C1: for every outcome of the child-process invocation, `run_zowe_cmd`
returns (never raises) either a dict with a human-readable `error` field,
or, on a zero exit with stdout that strips to valid JSON, the parsed JSON
value of stdout. -/
theorem C1_run_zowe_cmd_total (cmd_list : List String) (fe : FindEnv)
    (o : SubprocOutcome) (hne : cmd_list ≠ []) :
    (∃ msg, run_zowe_cmd cmd_list fe o = .ok (Json.obj [("error", Json.str msg)])) ∨
    (∃ rc out err j, o = .completed rc out err ∧ rc = 0 ∧
      jsonLoads (pyStrip out) = some j ∧ run_zowe_cmd cmd_list fe o = .ok j) := by
  match cmd_list, hne with
  | c :: rest, _ =>
    cases o with
    | completed rc out err =>
      by_cases hrc : rc = 0
      · subst hrc
        by_cases hout : pyStrip out = ""
        · left
          exact ⟨"Empty response from Zowe CLI", by simp [run_zowe_cmd, hout]⟩
        · cases hj : jsonLoads (pyStrip out) with
          | some j =>
            right
            exact ⟨0, out, err, j, rfl, rfl, hj, by simp [run_zowe_cmd, hout, hj]⟩
          | none =>
            left
            exact ⟨"Invalid JSON: " ++ pyTake 200 out, by simp [run_zowe_cmd, hout, hj]⟩
      · left
        exact ⟨pyOrStr err out, by simp [run_zowe_cmd, hrc]⟩
    | fileNotFound =>
      left
      exact ⟨zoweNotFoundMsg (find_zowe_executable fe), by simp [run_zowe_cmd]⟩
    | timeoutExpired =>
      left
      exact ⟨"Command timed out", by simp [run_zowe_cmd]⟩
    | otherExc m =>
      left
      exact ⟨m, by simp [run_zowe_cmd]⟩

/-- Witness for C1 at a concrete invocation: a zero exit whose stdout is
the JSON text `[1]`. -/
theorem C1_witness :
    (["zowe", "--rfj"] : List String) ≠ [] ∧
    ((∃ msg, run_zowe_cmd ["zowe", "--rfj"] fe0 (.completed 0 " [1] " "") =
        .ok (Json.obj [("error", Json.str msg)])) ∨
     (∃ rc out err j, (SubprocOutcome.completed 0 " [1] " "") = .completed rc out err ∧
        rc = 0 ∧ jsonLoads (pyStrip out) = some j ∧
        run_zowe_cmd ["zowe", "--rfj"] fe0 (.completed 0 " [1] " "") = .ok j)) := by
  refine ⟨by simp, C1_run_zowe_cmd_total ["zowe", "--rfj"] fe0 (.completed 0 " [1] " "") (by simp)⟩

/-- C2 (amended): when the Invoker reports an error-shaped dict, the
domain query functions `get_user_jobs`, `get_datasets`, `get_job_status`,
`get_job_spool_files` and `get_job_spool_file_content` return that object
unchanged — but `get_pds_members` returns the empty list instead. -/
theorem C2_error_passthrough (user hlq pds job1 job2 job3 u1 u2 u3 spool : String)
    (fe : FindEnv) (o : SubprocOutcome) (fields : List (String × Json))
    (hd : run_zowe_cmd ["zowe"] fe o = .ok (Json.obj fields))
    (herr : dictHasKey fields "error" = true) :
    get_user_jobs user fe o = .ok (Json.obj fields) ∧
    get_datasets hlq fe o = .ok (Json.obj fields) ∧
    get_job_status job1 u1 fe o = .ok (Json.obj fields) ∧
    get_job_spool_files job2 u2 fe o = .ok (Json.obj fields) ∧
    get_job_spool_file_content job3 spool u3 fe o = .ok (Json.obj fields) ∧
    get_pds_members pds fe o = .ok (Json.arr []) := by
  refine ⟨?_, ?_, ?_, ?_, ?_, ?_⟩
  · have hd' : run_zowe_cmd
        ["zowe", "zos-jobs", "list", "jobs", "--owner", user, "--rfj"] fe o =
        .ok (Json.obj fields) := hd
    simp [get_user_jobs, hd', pyIn, herr, Bind.bind, Except.bind, Pure.pure, Except.pure]
  · have hd' : run_zowe_cmd
        ["zowe", "zos-files", "list", "data-set", hlq ++ ".*", "--rfj"] fe o =
        .ok (Json.obj fields) := hd
    simp [get_datasets, hd', pyIn, herr, Bind.bind, Except.bind, Pure.pure, Except.pure]
  · have hd' : run_zowe_cmd
        ["zowe", "zos-jobs", "view", "job-status-by-jobid", job1, "--rfj"] fe o =
        .ok (Json.obj fields) := hd
    simpa [get_job_status] using hd'
  · have hd' : run_zowe_cmd
        ["zowe", "zos-jobs", "list", "spool-files-by-jobid", job2, "--rfj"] fe o =
        .ok (Json.obj fields) := hd
    simpa [get_job_spool_files] using hd'
  · have hd' : run_zowe_cmd
        ["zowe", "zos-jobs", "view", "spool-file-by-id", job3, spool, "--rfj"] fe o =
        .ok (Json.obj fields) := hd
    simp [get_job_spool_file_content, hd', pyIn, herr, Bind.bind, Except.bind,
      Pure.pure, Except.pure]
  · have hd' : run_zowe_cmd
        ["zowe", "zos-files", "list", "all-members", pds, "--rfj"] fe o =
        .ok (Json.obj fields) := hd
    simp [get_pds_members, hd', pyIn, herr, Bind.bind, Except.bind, Pure.pure, Except.pure]

/-- Witness for C2 at a concrete timeout outcome. -/
theorem C2_witness :
    run_zowe_cmd ["zowe"] fe0 .timeoutExpired =
      .ok (Json.obj [("error", Json.str "Command timed out")]) ∧
    dictHasKey [("error", Json.str "Command timed out")] "error" = true ∧
    get_job_spool_file_content "JOB00001" "2" "u" fe0 .timeoutExpired =
      .ok (Json.obj [("error", Json.str "Command timed out")]) ∧
    get_pds_members "A.B" fe0 .timeoutExpired = .ok (Json.arr []) := by
  refine ⟨rfl, rfl, ?_, ?_⟩
  · exact (C2_error_passthrough "u" "h" "A.B" "j" "j" "JOB00001" "x" "x" "u" "2"
      fe0 .timeoutExpired [("error", Json.str "Command timed out")] rfl rfl).2.2.2.2.1
  · exact (C2_error_passthrough "u" "h" "A.B" "j" "j" "JOB00001" "x" "x" "u" "2"
      fe0 .timeoutExpired [("error", Json.str "Command timed out")] rfl rfl).2.2.2.2.2

/-- Counterexample to C2 as stated: on a timed-out invocation the Invoker
result is the error dict, but `get_pds_members` returns the empty list,
not that error object. -/
theorem C2_counterexample :
    run_zowe_cmd ["zowe", "zos-files", "list", "all-members", "A.B", "--rfj"]
        fe0 .timeoutExpired =
      .ok (Json.obj [("error", Json.str "Command timed out")]) ∧
    get_pds_members "A.B" fe0 .timeoutExpired = .ok (Json.arr []) ∧
    Json.arr [] ≠ Json.obj [("error", Json.str "Command timed out")] := by
  exact ⟨rfl, rfl, fun h => Json.noConfusion h⟩

theorem fsExists_fsWrite_self (st : St) (p : String) (b : List UInt8) :
    fsExists (fsWrite st p b) p = true := by
  simp [fsExists, fsWrite]

theorem filter_ne_no_match (l : List (String × List UInt8)) (p : String) :
    (l.filter (fun e => e.1 ≠ p)).any (fun e => e.1 == p) = false := by
  rw [List.any_eq_false]
  intro x hx
  have := (List.mem_filter.mp hx).2
  simp at this ⊢
  exact this

theorem cleanup_after_write (st : St) (p : String) (hex : fsExists st p = true) :
    (cleanupTemp st p).unlinks = st.unlinks ++ [p] ∧
      fsExists (cleanupTemp st p) p = false := by
  constructor
  · simp only [cleanupTemp, hex, if_true]
    simp [fsUnlink]
  · simp only [cleanupTemp, hex, if_true]
    simp only [fsUnlink, fsExists]
    exact filter_ne_no_match st.fs p

theorem run_zowe_cmd_st_fs (c : String) (r : List String) (fe : FindEnv) (st : St) :
    (run_zowe_cmd_st (c :: r) fe st).2.fs = st.fs := rfl

theorem run_zowe_cmd_st_unlinks (c : String) (r : List String) (fe : FindEnv) (st : St) :
    (run_zowe_cmd_st (c :: r) fe st).2.unlinks = st.unlinks := rfl

theorem submit_cleanup_shape (jcl_content user_id2 : String) (jmn : Option String)
    (timeVal : Nat) (temp2 : String) (fe : FindEnv) (st2 : St) :
    ∃ stZ : St, (submit_jcl_job jcl_content user_id2 jmn timeVal temp2 fe st2).2
        = cleanupTemp stZ temp2 ∧ stZ.unlinks = st2.unlinks ∧
        fsExists stZ temp2 = true := by
  simp only [submit_jcl_job, run_zowe_cmd_st, submitUploadCmd, submitSubmitCmd]
  split
  next e heq => exact ⟨_, rfl, rfl, by simp [fsExists, fsWrite]⟩
  next ur heq =>
    split
    next e2 heq2 => exact ⟨_, rfl, rfl, by simp [fsExists, fsWrite]⟩
    next heq2 => exact ⟨_, rfl, rfl, by simp [fsExists, fsWrite]⟩
    next heq2 => exact ⟨_, rfl, rfl, by simp [fsExists, fsWrite]⟩

/-- C3: both mutation functions delete their temporary file exactly once
(exactly one `os.unlink` call is appended) and the file no longer exists
when they return — for every queue of subprocess outcomes, hence on
every failure path of the CLI invocation steps. -/
theorem C3_temp_deleted (dsname member content user_id : String)
    (jcl_content user_id2 : String) (jmn : Option String) (timeVal : Nat)
    (temp1 temp2 : String) (fe : FindEnv) (st1 st2 : St) :
    ((upload_cobol_to_dataset dsname member content user_id temp1 fe st1).2.unlinks
        = st1.unlinks ++ [temp1] ∧
     fsExists (upload_cobol_to_dataset dsname member content user_id temp1 fe st1).2 temp1
        = false) ∧
    ((submit_jcl_job jcl_content user_id2 jmn timeVal temp2 fe st2).2.unlinks
        = st2.unlinks ++ [temp2] ∧
     fsExists (submit_jcl_job jcl_content user_id2 jmn timeVal temp2 fe st2).2 temp2
        = false) := by
  constructor
  · have hshape : (upload_cobol_to_dataset dsname member content user_id temp1 fe st1).2
        = cleanupTemp ((run_zowe_cmd_st (uploadCobolCmd temp1 dsname member) fe
            (fsWrite st1 temp1 (cobol_bytes content))).2) temp1 := rfl
    have hex : fsExists ((run_zowe_cmd_st (uploadCobolCmd temp1 dsname member) fe
        (fsWrite st1 temp1 (cobol_bytes content))).2) temp1 = true := by
      simp [run_zowe_cmd_st, uploadCobolCmd, fsExists, fsWrite]
    have hul : ((run_zowe_cmd_st (uploadCobolCmd temp1 dsname member) fe
        (fsWrite st1 temp1 (cobol_bytes content))).2).unlinks = st1.unlinks := rfl
    obtain ⟨h1, h2⟩ := cleanup_after_write _ temp1 hex
    rw [hshape, h1, h2, hul]
    exact ⟨rfl, rfl⟩
  · obtain ⟨stZ, hshape, hul, hex⟩ :=
      submit_cleanup_shape jcl_content user_id2 jmn timeVal temp2 fe st2
    obtain ⟨h1, h2⟩ := cleanup_after_write stZ temp2 hex
    rw [hshape, h1, h2, hul]
    exact ⟨rfl, rfl⟩

theorem cleanupTemp_calls (st : St) (p : String) :
    (cleanupTemp st p).calls = st.calls := by
  unfold cleanupTemp
  split <;> simp [fsUnlink]

/-- C4: when the upload step of `submit_jcl_job` reports an error-shaped
result, the submit command is never invoked (exactly one subprocess call
is recorded — the upload) and the upload error object is returned
unchanged. -/
theorem C4_submit_short_circuit (jcl_content user_id : String)
    (jmn : Option String) (timeVal : Nat) (temp : String) (fe : FindEnv)
    (st : St) (fields : List (String × Json))
    (hup : run_zowe_cmd ["zowe"] fe (st.outcomes.headD (.otherExc "")) =
      .ok (Json.obj fields))
    (herr : dictHasKey fields "error" = true) :
    (submit_jcl_job jcl_content user_id jmn timeVal temp fe st).1 =
      .ok (Json.obj fields) ∧
    (submit_jcl_job jcl_content user_id jmn timeVal temp fe st).2.calls =
      st.calls ++ [resolveCmd (submitUploadCmd temp (user_id ++ ".JCL")
        (submitMemberName jmn timeVal)) fe] := by
  have hupG : run_zowe_cmd
      ["zowe", "zos-files", "upload", "file-to-data-set", temp,
        user_id ++ ".JCL" ++ "(" ++ submitMemberName jmn timeVal ++ ")", "--rfj"]
      fe (st.outcomes.headD (SubprocOutcome.otherExc "")) = .ok (Json.obj fields) := hup
  constructor
  · simp only [submit_jcl_job, run_zowe_cmd_st, submitUploadCmd, fsWrite, hupG,
      pyIn, herr]
  · simp only [submit_jcl_job, run_zowe_cmd_st, submitUploadCmd, fsWrite, hupG,
      pyIn, herr, cleanupTemp_calls]

/-- Witness for C4: with a timeout queued for the upload invocation,
`submit_jcl_job` returns the timeout error dict and records exactly the
one upload call. -/
theorem C4_witness :
    run_zowe_cmd ["zowe"] fe0 (st0.outcomes.headD (.otherExc "")) =
      .ok (Json.obj [("error", Json.str "Command timed out")]) ∧
    dictHasKey [("error", Json.str "Command timed out")] "error" = true ∧
    (submit_jcl_job "//A JOB" "Z83570" none 0 "/tmp/t.jcl" fe0 st0).1 =
      .ok (Json.obj [("error", Json.str "Command timed out")]) ∧
    (submit_jcl_job "//A JOB" "Z83570" none 0 "/tmp/t.jcl" fe0 st0).2.calls =
      st0.calls ++ [resolveCmd (submitUploadCmd "/tmp/t.jcl" ("Z83570" ++ ".JCL")
        (submitMemberName none 0)) fe0] := by
  refine ⟨rfl, rfl, ?_, ?_⟩
  · exact (C4_submit_short_circuit "//A JOB" "Z83570" none 0 "/tmp/t.jcl" fe0 st0
      [("error", Json.str "Command timed out")] rfl rfl).1
  · exact (C4_submit_short_circuit "//A JOB" "Z83570" none 0 "/tmp/t.jcl" fe0 st0
      [("error", Json.str "Command timed out")] rfl rfl).2

/-- C5 (amended): the job name field is the program name truncated to 8
and space-padded to exactly 8 characters; the program name field is only
truncated (at most 8 characters, no padding); and for `MYPROG` the
8-character `MYPROG  ` appears verbatim in the generated job card. -/
theorem C5_jcl_name_fields (program_name : String) :
    jclJobName program_name = pyLjust 8 (pyTake 8 program_name) ∧
    (jclJobName program_name).data.length = 8 ∧
    jclPgmName program_name = pyTake 8 program_name ∧
    (jclPgmName program_name).data.length ≤ 8 ∧
    jclJobName "MYPROG" = "MYPROG  " ∧
    strContains (generate_compile_jcl "Z83570" "MYPROG" "Z83570.SOURCE" "Z83570.LOAD")
      "//MYPROG   JOB " = true ∧
    strContains (generate_compile_jcl "Z83570" "MYPROG" "Z83570.SOURCE" "Z83570.LOAD")
      "MYPROG  " = true := by
  refine ⟨rfl, ?_, rfl, ?_, rfl, rfl, rfl⟩
  · simp [jclJobName, pyLjust, pyTake, List.length_take]
  · simp [jclPgmName, pyTake, List.length_take]

set_option maxRecDepth 8192 in
/-- Counterexample to C5 as stated: in the generated document the program
name field occurs unpadded — `PGM=MYPROG` is followed by a line break,
so the 8-character `MYPROG  ` does not follow `PGM=`. -/
theorem C5_counterexample :
    strContains (generate_compile_jcl "Z83570" "MYPROG" "Z83570.SOURCE" "Z83570.LOAD")
      "PGM=MYPROG" = true ∧
    strContains (generate_compile_jcl "Z83570" "MYPROG" "Z83570.SOURCE" "Z83570.LOAD")
      "PGM=MYPROG  " = false ∧
    jclPgmName "MYPROG" = "MYPROG" := by
  exact ⟨rfl, rfl, rfl⟩

theorem cleanupTemp_writes (st : St) (p : String) :
    (cleanupTemp st p).writes = st.writes := by
  unfold cleanupTemp
  split <;> simp [fsUnlink]

/-- C6: the bytes `upload_cobol_to_dataset` writes to its temporary file
are exactly the UTF-8 encoding of the spec's CRLF normalization of the
input (every CRLF, lone CR, or lone LF becomes exactly one CRLF), and the
transformed text has no lone CR or LF left; the transform is the
deterministic function `cobolCrlfString` of the input text. -/
theorem C6_upload_writes_crlf (dsname member content user_id temp : String)
    (fe : FindEnv) (st : St) :
    (upload_cobol_to_dataset dsname member content user_id temp fe st).2.writes
      = st.writes ++ [(temp, cobol_bytes content)] ∧
    cobol_bytes content = (crlfSpecStr content).toUTF8.data.toList ∧
    goodBreaks (cobolCrlfString content).data = true := by
  refine ⟨?_, ?_, ?_⟩
  · have hshape : (upload_cobol_to_dataset dsname member content user_id temp fe st).2
        = cleanupTemp ((run_zowe_cmd_st (uploadCobolCmd temp dsname member) fe
            (fsWrite st temp (cobol_bytes content))).2) temp := rfl
    rw [hshape, cleanupTemp_writes]
    rfl
  · unfold cobol_bytes
    rw [cobol_transform_eq]
  · rw [show cobolCrlfString content = crlfSpecStr content from cobol_transform_eq content]
    show goodBreaks (crlfSpec content.data) = true
    rw [← expand_norm]
    exact good_expand _ (normLF_no_cr _)


theorem isEmpty_false_of_ne (s : String) (h : s ≠ "") : s.isEmpty = false := by
  rw [Bool.eq_false_iff]
  intro hh
  exact h ((String.isEmpty_iff s).mp hh)

/-- C7: the listing adapters resolve an item's logical name through the
supported key spellings — `dsname` else `name` for datasets, `member`
else `memberName` for members — extracting the same value whichever
spelling carries it, and an item with neither spelling contributes
nothing to the collected list rather than failing. -/
theorem C7_spelling_fallback (fields : List (String × Json)) (s : String)
    (rest tail : List Json) (hs : s ≠ "") :
    (dictGet? fields "dsname" = some (Json.str s) →
      extractName "dsname" "name" (Json.obj fields) = .ok (some (Json.str s))) ∧
    (dictGet? fields "dsname" = none →
      dictGet? fields "name" = some (Json.str s) →
      extractName "dsname" "name" (Json.obj fields) = .ok (some (Json.str s))) ∧
    (dictGet? fields "dsname" = none → dictGet? fields "name" = none →
      extractName "dsname" "name" (Json.obj fields) = .ok none ∧
      (collectDsnames rest = .ok tail →
        collectDsnames (Json.obj fields :: rest) = .ok tail)) ∧
    (dictGet? fields "member" = some (Json.str s) →
      extractName "member" "memberName" (Json.obj fields) = .ok (some (Json.str s))) ∧
    (dictGet? fields "member" = none →
      dictGet? fields "memberName" = some (Json.str s) →
      extractName "member" "memberName" (Json.obj fields) = .ok (some (Json.str s))) ∧
    (dictGet? fields "member" = none → dictGet? fields "memberName" = none →
      extractName "member" "memberName" (Json.obj fields) = .ok none ∧
      (collectMembers rest = .ok tail →
        collectMembers (Json.obj fields :: rest) = .ok tail)) := by
  have hne := isEmpty_false_of_ne s hs
  refine ⟨?_, ?_, ?_, ?_, ?_, ?_⟩
  · intro h1
    simp [extractName, pyGetOpt, h1, pyOrOpt, pyTruthy, hne,
      Bind.bind, Except.bind]
  · intro h1 h2
    simp [extractName, pyGetOpt, h1, h2, pyOrOpt, pyTruthy, hne,
      Bind.bind, Except.bind]
  · intro h1 h2
    have hx : extractName "dsname" "name" (Json.obj fields) = .ok none := by
      simp [extractName, pyGetOpt, h1, h2, pyOrOpt, Bind.bind, Except.bind]
    refine ⟨hx, fun ht => ?_⟩
    simp [collectDsnames, hx, ht, Bind.bind, Except.bind]
  · intro h1
    simp [extractName, pyGetOpt, h1, pyOrOpt, pyTruthy, hne,
      Bind.bind, Except.bind]
  · intro h1 h2
    simp [extractName, pyGetOpt, h1, h2, pyOrOpt, pyTruthy, hne,
      Bind.bind, Except.bind]
  · intro h1 h2
    have hx : extractName "member" "memberName" (Json.obj fields) = .ok none := by
      simp [extractName, pyGetOpt, h1, h2, pyOrOpt, Bind.bind, Except.bind]
    refine ⟨hx, fun ht => ?_⟩
    simp [collectMembers, hx, ht, Bind.bind, Except.bind]

/-- Witness for C7 at concrete items for all three resolution cases. -/
theorem C7_witness :
    ("Z83570.SOURCE" : String) ≠ "" ∧
    dictGet? [("dsname", Json.str "Z83570.SOURCE")] "dsname" =
      some (Json.str "Z83570.SOURCE") ∧
    extractName "dsname" "name" (Json.obj [("dsname", Json.str "Z83570.SOURCE")]) =
      .ok (some (Json.str "Z83570.SOURCE")) ∧
    extractName "dsname" "name" (Json.obj [("name", Json.str "Z83570.SOURCE")]) =
      .ok (some (Json.str "Z83570.SOURCE")) ∧
    collectDsnames [Json.obj [("other", Json.str "x")]] = .ok [] := by
  refine ⟨by simp, rfl, ?_, ?_, ?_⟩
  · exact (C7_spelling_fallback [("dsname", Json.str "Z83570.SOURCE")]
      "Z83570.SOURCE" [] [] (by simp)).1 rfl
  · exact (C7_spelling_fallback [("name", Json.str "Z83570.SOURCE")]
      "Z83570.SOURCE" [] [] (by simp)).2.1 rfl rfl
  · exact ((C7_spelling_fallback [("other", Json.str "x")]
      "Z83570.SOURCE" [] [] (by simp)).2.2.1 rfl rfl).2 rfl


/-- C8: `get_pi_info` is total (each probe sits inside a bare `except`),
and each failing host read degrades to its explicit marker: a failed
`/proc/cpuinfo` read makes `is_pi` `False`, and a failed temperature,
uptime, memory, or disk probe yields the `"N/A"` marker. -/
theorem C8_pi_probes_degrade (e : PiEnv) :
    (e.cpuinfo = none → (get_pi_info e).is_pi = false) ∧
    (e.thermal = none → (get_pi_info e).cpu_temp = "N/A") ∧
    (e.uptimeFile = none → (get_pi_info e).uptime = "N/A") ∧
    (e.freeOut = none → (get_pi_info e).memory = "N/A") ∧
    (e.dfOut = none → (get_pi_info e).disk = some "N/A") := by
  refine ⟨?_, ?_, ?_, ?_, ?_⟩
  · intro h
    simp [get_pi_info, piDetect, h]
  · intro h
    simp [get_pi_info, piDetect, piCpuTemp, h]
  · intro h
    simp [get_pi_info, piDetect, piUptime, h]
  · intro h
    simp [get_pi_info, piDetect, piMemory, h]
  · intro h
    simp [get_pi_info, piDetect, piDisk, h]

/-- Witness for C8: with every probe failing, the info dict carries the
explicit unavailable markers. -/
theorem C8_witness :
    (piEnvAllFail.cpuinfo = none ∧ piEnvAllFail.thermal = none ∧
     piEnvAllFail.uptimeFile = none ∧ piEnvAllFail.freeOut = none ∧
     piEnvAllFail.dfOut = none) ∧
    ((get_pi_info piEnvAllFail).is_pi = false ∧
     (get_pi_info piEnvAllFail).cpu_temp = "N/A" ∧
     (get_pi_info piEnvAllFail).uptime = "N/A" ∧
     (get_pi_info piEnvAllFail).memory = "N/A" ∧
     (get_pi_info piEnvAllFail).disk = some "N/A") := by
  refine ⟨⟨rfl, rfl, rfl, rfl, rfl⟩, ?_, ?_, ?_, ?_, ?_⟩
  · exact (C8_pi_probes_degrade piEnvAllFail).1 rfl
  · exact (C8_pi_probes_degrade piEnvAllFail).2.1 rfl
  · exact (C8_pi_probes_degrade piEnvAllFail).2.2.1 rfl
  · exact (C8_pi_probes_degrade piEnvAllFail).2.2.2.1 rfl
  · exact (C8_pi_probes_degrade piEnvAllFail).2.2.2.2 rfl

/-- C10: `check_mainframe_connection` returns `False` in every
environment and on every subprocess outcome: its body looks up
`opsdash_web.get_zowe_profile_name`, which the module does not define, so
the bare `except:` converts the `AttributeError` into `False` before the
health probe can ever run. -/
theorem C10_check_mainframe_always_false (fe : FindEnv) (o : SubprocOutcome) :
    check_mainframe_connection fe o = false ∧
    opsdash_web_has_attr "get_zowe_profile_name" = false :=
  ⟨rfl, rfl⟩


theorem mem_insertTsDesc (a r : JobRow) (l : List JobRow) :
    a ∈ insertTsDesc r l ↔ a = r ∨ a ∈ l := by
  induction l with
  | nil => simp [insertTsDesc]
  | cons x xs ih =>
    simp only [insertTsDesc]
    split
    · simp
    · simp [ih]
      tauto

theorem sorted_insertTsDesc (r : JobRow) (l : List JobRow)
    (h : List.Pairwise (fun a b => b.timestamp ≤ a.timestamp) l) :
    List.Pairwise (fun a b => b.timestamp ≤ a.timestamp) (insertTsDesc r l) := by
  induction l with
  | nil => simp [insertTsDesc]
  | cons x xs ih =>
    simp only [insertTsDesc]
    split
    next hlt =>
      refine List.Pairwise.cons ?_ h
      intro y hy
      rcases List.mem_cons.mp hy with hy | hy
      · subst hy
        exact le_of_lt hlt
      · exact le_trans ((List.pairwise_cons.mp h).1 y hy) (le_of_lt hlt)
    next hnlt =>
      have hx := (List.pairwise_cons.mp h).1
      have hxs := (List.pairwise_cons.mp h).2
      refine List.Pairwise.cons ?_ (ih hxs)
      intro y hy
      rcases (mem_insertTsDesc y r xs).mp hy with hy | hy
      · subst hy
        exact le_of_not_lt hnlt
      · exact hx y hy

theorem sorted_sortTsDesc (l : List JobRow) :
    List.Pairwise (fun a b => b.timestamp ≤ a.timestamp) (sortTsDesc l) := by
  induction l with
  | nil => simp [sortTsDesc]
  | cons r rs ih => exact sorted_insertTsDesc r (sortTsDesc rs) ih

/-- C9 (amended): `get_recent_job_history` returns the empty list when
the database file does not exist; for a non-negative limit it returns at
most that many rows; and the returned rows are ordered by their timestamp
column descending (reverse chronological order for the ISO-format
timestamps `log_job_status` writes, whose lexicographic order is
chronological).  A negative limit, per SQLite `LIMIT` semantics, means
no bound. -/
theorem C9_history_ordered_limited (limit : Int) (rows : List JobRow) :
    get_recent_job_history limit none = [] ∧
    (0 ≤ limit →
      (get_recent_job_history limit (some rows)).length ≤ limit.toNat) ∧
    List.Pairwise (fun a b => b.1 ≤ a.1)
      (get_recent_job_history limit (some rows)) := by
  refine ⟨rfl, ?_, ?_⟩
  · intro hpos
    have hneg : ¬ limit < 0 := not_lt.mpr hpos
    simp [get_recent_job_history, sqlLimit, hneg]
  · have hs := sorted_sortTsDesc rows
    have hlim : List.Pairwise (fun a b => b.timestamp ≤ a.timestamp)
        (sqlLimit limit (sortTsDesc rows)) := by
      unfold sqlLimit
      split
      · exact hs
      · exact hs.sublist (List.take_sublist _ _)
    simp only [get_recent_job_history, List.pairwise_map]
    exact hlim

/-- Witness for C9 at limit 2 over a concrete three-row table. -/
theorem C9_witness :
    (0 : Int) ≤ 2 ∧
    (get_recent_job_history 2 (some
      [⟨"2026-01-01T00:00:00", "J1", "A", "OUTPUT", "0", "U"⟩,
       ⟨"2026-03-01T00:00:00", "J2", "B", "ACTIVE", "-", "U"⟩,
       ⟨"2026-02-01T00:00:00", "J3", "C", "OUTPUT", "4", "U"⟩])).length ≤ 2 ∧
    List.Pairwise (fun a b => b.1 ≤ a.1)
      (get_recent_job_history 2 (some
        [⟨"2026-01-01T00:00:00", "J1", "A", "OUTPUT", "0", "U"⟩,
         ⟨"2026-03-01T00:00:00", "J2", "B", "ACTIVE", "-", "U"⟩,
         ⟨"2026-02-01T00:00:00", "J3", "C", "OUTPUT", "4", "U"⟩])) := by
  refine ⟨by decide, ?_, ?_⟩
  · exact (C9_history_ordered_limited 2
      [⟨"2026-01-01T00:00:00", "J1", "A", "OUTPUT", "0", "U"⟩,
       ⟨"2026-03-01T00:00:00", "J2", "B", "ACTIVE", "-", "U"⟩,
       ⟨"2026-02-01T00:00:00", "J3", "C", "OUTPUT", "4", "U"⟩]).2.1 (by decide)
  · exact (C9_history_ordered_limited 2
      [⟨"2026-01-01T00:00:00", "J1", "A", "OUTPUT", "0", "U"⟩,
       ⟨"2026-03-01T00:00:00", "J2", "B", "ACTIVE", "-", "U"⟩,
       ⟨"2026-02-01T00:00:00", "J3", "C", "OUTPUT", "4", "U"⟩]).2.2

/-- Counterexample to C9 as stated ("every caller-supplied limit"): for
the negative limit `-1` SQLite places no bound, so a one-row table
returns one row, which is not "at most -1". -/
theorem C9_counterexample :
    (get_recent_job_history (-1) (some
      [⟨"2026-01-01T00:00:00", "J1", "A", "OUTPUT", "0", "U"⟩])).length = 1 ∧
    ¬ ((1 : Int) ≤ -1) := by
  exact ⟨rfl, by decide⟩

end OpsDash
